import Mathlib

/-!
Shallow embedding of the `blp-index-tracking` data-preparation pipeline
(`src/prepare_data.py` and `src/data_io.py`).

Dates are modelled as natural numbers (days since 1970-01-01, a Thursday).
An undefined (NaN) cell is `Option.none`; defined price/return values are
rationals.  A pandas `DataFrame` with a date index becomes `DF`: a date axis
plus named columns of optional values.  All fallible code paths become
`Except PipeError`.
-/

namespace BLP

/-- A cell of a price or return table: `none` models a pandas NaN. -/
abbrev Cell := Option ℚ

/-- A single named series is carried as (date, value) rows, in index order. -/
abbrev Series := List (Nat × Cell)

/-- A date-indexed table (pandas DataFrame): a date axis and named columns,
each column listing one cell per date (column-major). -/
structure DF where
  dates : List Nat
  cols : List (String × List Cell)
deriving DecidableEq

/-- The raw response of the external (Stooq) source for one symbol: a date
axis and named columns, as delivered (possibly descending). -/
structure RawDF where
  dates : List Nat
  cols : List (String × List Cell)
deriving DecidableEq

/-- Failures of the pipeline.  `noData` is the `ValueError` of
`_fetch_stooq` (spec: `NoDataError`); `keyErr` is the `KeyError` a pandas
column access raises; `unsupportedFreq` is the `KeyError` of the frequency
rule table in `_resample_if_needed` (spec: `UnsupportedFrequencyError`);
`badFillLimit` is the pandas `ValueError` rejecting `ffill(limit=0)`;
`insufficientData actual required` is the `ValueError` of `main`'s row-count
gate (spec: `InsufficientDataError`). -/
inductive PipeError where
  | noData (sym : String)
  | keyErr (col : String)
  | unsupportedFreq (freq : String)
  | badFillLimit
  | insufficientData (actual required : Nat)
deriving DecidableEq

/-- `df.empty` in pandas: some axis has length zero. -/
def RawDF.isEmpty (raw : RawDF) : Prop := raw.dates = [] ∨ raw.cols = []

instance : DecidablePred RawDF.isEmpty := fun raw => by
  unfold RawDF.isEmpty; infer_instance

/-- The column-priority loop of `_fetch_stooq`: `col = "Close"`, then the
first of `("Adj Close", "AdjClose", "Close")` present in the columns wins. -/
def pickCol (names : List String) : String :=
  match (["Adj Close", "AdjClose", "Close"]).find? (fun c => names.contains c) with
  | some c => c
  | none => "Close"

/-- Ordering of rows by date key, used to model `sort_index()`. -/
def keyLE {α : Type} (p q : Nat × α) : Prop := p.1 ≤ q.1

instance {α : Type} : DecidableRel (keyLE (α := α)) := fun p q => by
  unfold keyLE; infer_instance

instance {α : Type} : IsTotal (Nat × α) keyLE :=
  ⟨fun p q => Nat.le_total p.1 q.1⟩

instance {α : Type} : IsTrans (Nat × α) keyLE :=
  ⟨fun _ _ _ h h' => Nat.le_trans h h'⟩

/-- `sort_index()` on rows carrying a date key. -/
def sortRows {α : Type} (l : List (Nat × α)) : List (Nat × α) :=
  List.insertionSort keyLE l

/-- `_fetch_stooq(symbol, start, end)`, with the external response `raw`
passed in as data (the one network call per instrument).  Raises `NoDataError`
on an empty response, picks the canonical price column, and sorts by date
ascending. -/
def fetchStooq (sym : String) (raw : RawDF) : Except PipeError Series :=
  if raw.dates = [] ∨ raw.cols = [] then .error (.noData sym)
  else
    match raw.cols.find? (fun nc => nc.1 == pickCol (raw.cols.map Prod.fst)) with
    | none => .error (.keyErr (pickCol (raw.cols.map Prod.fst)))
    | some nc => .ok (sortRows (raw.dates.zip nc.2))

/-- `s.to_frame()` for a named series. -/
def seriesToFrame (name : String) (s : Series) : DF :=
  ⟨s.map Prod.fst, [(name, s.map Prod.snd)]⟩

/-- The fetch loop of `_fetch_many`: one `_fetch_stooq` call per symbol, in
order, failing the whole build on the first failure. -/
def fetchSeries (src : String → RawDF) : List String → Except PipeError (List (String × Series))
  | [] => .ok []
  | sym :: rest =>
    match fetchStooq sym (src sym) with
    | .error e => .error e
    | .ok s =>
      match fetchSeries src rest with
      | .error e => .error e
      | .ok more => .ok ((sym, s) :: more)

/-- Cell of a series at date `d` (first matching row), `none` if absent:
the reindexing a pandas outer join performs per column. -/
def lookupCell (s : Series) (d : Nat) : Cell := (s.lookup d).getD none

/-- `pd.concat(series, axis=1)` followed by `sort_index()`: the date axis is
the sorted union (without duplicates) of the series' dates, and each series
becomes one column reindexed onto that axis. -/
def outerJoin (series : List (String × Series)) : DF :=
  let ds := (List.insertionSort (· ≤ ·)
    ((series.foldr (fun s acc => s.2.map Prod.fst ++ acc) []).dedup))
  ⟨ds, series.map (fun s => (s.1, ds.map (fun d => lookupCell s.2 d)))⟩

/-- `_fetch_many(symbols, start, end)`. -/
def fetchMany (src : String → RawDF) (syms : List String) : Except PipeError DF :=
  (fetchSeries src syms).map outerJoin

/-- One column of pandas `ffill(limit=g)`: scan keeping the last defined
value `last` and the count `cnt` of consecutive undefined cells seen since
it; an undefined cell is filled iff fewer than `g` undefined cells separate
it from the last defined one (so a longer run is filled only in its first
`g` positions, and leading undefined cells stay undefined). -/
def ffillCol (g : Nat) (last : Cell) (cnt : Nat) : List Cell → List Cell
  | [] => []
  | none :: rest => (if cnt < g then last else none) :: ffillCol g last (cnt + 1) rest
  | some v :: rest => some v :: ffillCol g (some v) 0 rest

/-- `_forward_fill_limited(df, max_gap)` = `df.ffill(limit=max_gap)`.
pandas validates the limit and raises `ValueError("Limit must be greater
than 0")` when `limit = 0`. -/
def forwardFillLimited (g : Nat) (df : DF) : Except PipeError DF :=
  if g = 0 then .error .badFillLimit
  else .ok ⟨df.dates, df.cols.map (fun nc => (nc.1, ffillCol g none 0 nc.2))⟩

/-- Unlimited forward fill of one column (pandas `fillna(method="pad")`),
performed internally by `pct_change()` under its default `fill_method`. -/
def ffillPad (last : Cell) : List Cell → List Cell
  | [] => []
  | none :: rest => last :: ffillPad last rest
  | some v :: rest => some v :: ffillPad (some v) rest

/-- One column of `prices.pct_change()` (default `fill_method="pad"`):
pad the column forward, then `padded / padded.shift(1) - 1`, a cell being
defined when both the padded current and previous cells are.  (A zero
previous price would give an infinity in the source; no verified property
evaluates such a cell.) -/
def pctCol (c : List Cell) : List Cell :=
  let padded := ffillPad none c
  (padded.zip (none :: padded)).map
    (fun cp => match cp with
      | (some cur, some prev) => some (cur / prev - 1)
      | _ => none)

/-- Keep the elements of `l` whose positional flag in `m` is `true`. -/
def maskFilter {α : Type} (m : List Bool) (l : List α) : List α :=
  ((m.zip l).filter (fun p => p.1)).map (fun p => p.2)

/-- `df.dropna(how="all")`: drop the rows at which every column is
undefined. -/
def dropAllNaNRows (df : DF) : DF :=
  let keep := (List.range df.dates.length).map
    (fun i => df.cols.any (fun nc => (nc.2.getD i none).isSome))
  ⟨maskFilter keep df.dates, df.cols.map (fun nc => (nc.1, maskFilter keep nc.2))⟩

/-- `_to_simple_returns(prices)`: `pct_change()` then `dropna(how="all")`. -/
def toSimpleReturns (df : DF) : DF :=
  dropAllNaNRows ⟨df.dates, df.cols.map (fun nc => (nc.1, pctCol nc.2))⟩

/-- Cell of a column at date `d` (first matching date), `none` when `d` is
not on the axis: one cell of a pandas `.loc` row selection. -/
def cellAt (dates : List Nat) (col : List Cell) (d : Nat) : Cell :=
  ((dates.zip col).lookup d).getD none

/-- `df.loc[ds]`: the rows of `df` at the dates `ds`, in the order of `ds`. -/
def locDF (df : DF) (ds : List Nat) : DF :=
  ⟨ds, df.cols.map (fun nc => (nc.1, ds.map (fun d => cellAt df.dates nc.2 d)))⟩

/-- `_intersect_dates(a, b)`: `common = a.index.intersection(b.index)` (the
dates of `a`, in `a`'s order, that also occur in `b`), then
`a.loc[common], b.loc[common]`. -/
def intersectDates (a b : DF) : DF × DF :=
  let common := a.dates.filter (fun d => b.dates.contains d)
  (locDF a common, locDF b common)

/-- The `k`-th column of a table (values only, `[]` out of range). -/
def dfCol (df : DF) (k : Nat) : List Cell := (df.cols.map Prod.snd).getD k []

/-- The cell of the `k`-th column at date `d`. -/
def dfCell (df : DF) (k : Nat) (d : Nat) : Cell := cellAt df.dates (dfCol df k) d

/-! ### Resampling

`_resample_if_needed` delegates the calendar bucketing to pandas
(`df.resample("W-FRI" | "M").last()`).  Dates here are day counts from
1970-01-01 (a Thursday), so the week ending Friday containing day `d` is
`(d + 5) / 7`, and months are recovered with the standard civil-calendar
conversion (Gregorian, era arithmetic). -/

/-- Civil date (year, month `1..12`, day `1..31`) of day number `z` since
1970-01-01 (valid for `z ≥ 0`, i.e. dates from 1970 on). -/
def civilFromDays (z : Nat) : Nat × Nat × Nat :=
  let z' := z + 719468
  let era := z' / 146097
  let doe := z' % 146097
  let yoe := (doe - doe / 1460 + doe / 36524 - doe / 146096) / 365
  let y := yoe + era * 400
  let doy := doe - (365 * yoe + yoe / 4 - yoe / 100)
  let mp := (5 * doy + 2) / 153
  let d := doy - (153 * mp + 2) / 5 + 1
  let m := if mp < 10 then mp + 3 else mp - 9
  (if m ≤ 2 then y + 1 else y, m, d)

/-- Day number since 1970-01-01 of a civil date from 1970 on. -/
def daysFromCivil (y m d : Nat) : Nat :=
  let y' := if m ≤ 2 then y - 1 else y
  let era := y' / 400
  let yoe := y' % 400
  let mp := if 2 < m then m - 3 else m + 9
  let doy := (153 * mp + 2) / 5 + d - 1
  let doe := yoe * 365 + yoe / 4 - yoe / 100 + doy
  era * 146097 + doe - 719468

/-- Gregorian leap year. -/
def leapYear (y : Nat) : Bool := (y % 4 = 0 && y % 100 ≠ 0) || y % 400 = 0

/-- Number of days in a month. -/
def lastDayOfMonth (y m : Nat) : Nat :=
  if m = 2 then (if leapYear y then 29 else 28)
  else if m = 4 ∨ m = 6 ∨ m = 9 ∨ m = 11 then 30 else 31

/-- A resampling rule: which period a date belongs to, and the label date
(period end) of a period. -/
structure Rule where
  periodOf : Nat → Nat
  labelOf : Nat → Nat

/-- The `"W-FRI"` rule: weekly periods ending Friday.  Day 0 is a Thursday,
so day `d` belongs to week `(d + 5) / 7`, whose Friday is `7 * k + 1`. -/
def weeklyRule : Rule := ⟨fun d => (d + 5) / 7, fun k => 7 * k + 1⟩

/-- The `"M"` rule: calendar-month periods labelled by the month's last day. -/
def monthlyRule : Rule :=
  ⟨fun d => (civilFromDays d).1 * 12 + ((civilFromDays d).2.1 - 1),
   fun k => daysFromCivil (k / 12) (k % 12 + 1) (lastDayOfMonth (k / 12) (k % 12 + 1))⟩

/-- Python's `str.upper()` (ASCII flavour, which is all the frequency tags
use): uppercase every character. -/
def strUpper (s : String) : String := ⟨s.data.map Char.toUpper⟩

/-- The frequency-rule table `{"W": "W-FRI", "M": "M"}` of
`_resample_if_needed`; a missing key is the `KeyError` there. -/
def lookupRule (freq : String) : Option Rule :=
  if freq = "W" then some weeklyRule
  else if freq = "M" then some monthlyRule
  else none

/-- The last defined value of a list of cells (`Resampler.last()` skips
undefined cells within a period). -/
def lastDefined (c : List Cell) : Cell :=
  c.foldl (fun acc x => match x with | some v => some v | none => acc) none

/-- `df.resample(rule).last()`: one labelled row per period between the
first and last period present, each cell the last defined observation of
its column within the period (`none` for an empty or all-undefined
period). -/
def resampleLast (rule : Rule) (df : DF) : DF :=
  match df.dates with
  | [] => ⟨[], df.cols.map (fun nc => (nc.1, []))⟩
  | d0 :: ds =>
    let keys := (d0 :: ds).map rule.periodOf
    let kmin := keys.foldl Nat.min (rule.periodOf d0)
    let kmax := keys.foldl Nat.max (rule.periodOf d0)
    let ks := (List.range (kmax + 1 - kmin)).map (fun j => kmin + j)
    ⟨ks.map rule.labelOf,
     df.cols.map (fun nc =>
       (nc.1, ks.map (fun k =>
         lastDefined (((df.dates.zip nc.2).filter
           (fun p => rule.periodOf p.1 == k)).map Prod.snd))))⟩

/-- `_resample_if_needed(df, freq)`: identity for `"D"`/`"DAILY"` (any
case), resample-last for `"W"`/`"M"`, `KeyError` (spec:
`UnsupportedFrequencyError`) on any other tag. -/
def resampleIfNeeded (df : DF) (freq : String) : Except PipeError DF :=
  if strUpper freq = "D" ∨ strUpper freq = "DAILY" then .ok df
  else
    match lookupRule (strUpper freq) with
    | none => .error (.unsupportedFreq freq)
    | some rule => .ok (resampleLast rule df)

/-! ### The pipeline driver (`main`) -/

/-- The command-line configuration of `main` that the core pipeline
consumes: `--index`, `--tickers`, `--freq`, `--min-days`. -/
structure Config where
  indexSym : String
  tickers : List String
  freq : String
  minDays : Nat
deriving DecidableEq

/-- The four tables `main` persists (file I/O itself is excluded plumbing). -/
structure MainOut where
  assetPrices : DF
  idxPrices : DF
  assetRets : DF
  idxRets : DF
deriving DecidableEq

/-- `main` up to and including date alignment of the price panels: fetch
index and assets, forward-fill both with `max_gap=3`, resample when the
frequency is not `"D"`, then intersect the date axes. -/
def alignedPrices (src : String → RawDF) (cfg : Config) : Except PipeError (DF × DF) :=
  match fetchStooq cfg.indexSym (src cfg.indexSym) with
  | .error e => .error e
  | .ok idxS =>
    match fetchMany src cfg.tickers with
    | .error e => .error e
    | .ok astP0 =>
      match forwardFillLimited 3 astP0 with
      | .error e => .error e
      | .ok astP1 =>
        match forwardFillLimited 3 (seriesToFrame cfg.indexSym idxS) with
        | .error e => .error e
        | .ok idxP1 =>
          if strUpper cfg.freq = "D" then .ok (intersectDates astP1 idxP1)
          else
            match resampleIfNeeded astP1 cfg.freq with
            | .error e => .error e
            | .ok a =>
              match resampleIfNeeded idxP1 cfg.freq with
              | .error e => .error e
              | .ok i => .ok (intersectDates a i)

/-- The pure tail of `main` after the row-count gate: compute simple
returns for both panels and re-align them. -/
def mkOut (a i : DF) : MainOut :=
  let r := intersectDates (toSimpleReturns a) (toSimpleReturns i)
  ⟨a, i, r.1, r.2⟩

/-- The whole of `main` (file writes and metadata excluded): aligned
prices, then the sanity gate `len(asset_prices) < min_days`, then returns
and the post-return re-alignment. -/
def runMain (src : String → RawDF) (cfg : Config) : Except PipeError MainOut :=
  match alignedPrices src cfg with
  | .error e => .error e
  | .ok p =>
    if p.1.dates.length < cfg.minDays then
      .error (.insufficientData p.1.dates.length cfg.minDays)
    else
      .ok (mkOut p.1 p.2)

/-! ### The standalone loader (`data_io.load_returns_from_csv`)

Row-major model: a table is a list of (date, cells) rows; the index CSV
carries the single return column the pipeline wrote. -/

/-- `load_returns_from_csv(index_csv, assets_csv)`: sort both tables by
date, inner-join on date (`y` = the index column, `X` = the asset columns),
drop all-undefined asset columns, then drop every row still containing an
undefined cell. -/
def loadReturns (idxT : List (Nat × Cell)) (astT : List (Nat × List Cell)) :
    List (Nat × Cell) × List (Nat × List Cell) :=
  let idx := sortRows idxT
  let ast := sortRows astT
  let joined : List (Nat × List Cell × Cell) :=
    ast.filterMap (fun r => (idx.lookup r.1).map (fun v => (r.1, r.2, v)))
  let ncols := (joined.map (fun r => r.2.1.length)).foldr Nat.max 0
  let keepIdx := (List.range ncols).filter
    (fun j => joined.any (fun r => (r.2.1.getD j none).isSome))
  let df2 := joined.map (fun r => (r.1, keepIdx.map (fun j => r.2.1.getD j none), r.2.2))
  let kept := df2.filter (fun r => r.2.2.isSome && r.2.1.all Option.isSome)
  (kept.map (fun r => (r.1, r.2.2)), kept.map (fun r => (r.1, r.2.1)))

/-! ### The standardizer (`data_io.standardise_returns`)

Cells are real-valued here because the sample standard deviation takes a
square root.  `none` models NaN; pandas `mean`/`std` skip NaN, and the
sample standard deviation (`ddof=1`) of fewer than two observations is NaN. -/

/-- An optional-real cell of a return column. -/
abbrev RCell := Option ℝ

/-- The defined observations of a column (pandas skips NaN). -/
def definedVals (c : List RCell) : List ℝ := c.filterMap id

/-- Mean of a list of reals. -/
noncomputable def meanR (l : List ℝ) : ℝ := l.sum / l.length

/-- pandas `mean()` of a column: NaN when no observation is defined. -/
noncomputable def meanO (c : List RCell) : RCell :=
  if definedVals c = [] then none else some (meanR (definedVals c))

/-- pandas `std()` (`ddof=1`) of a column: NaN with fewer than two defined
observations, else the square root of the sample variance of the defined
ones. -/
noncomputable def stdO (c : List RCell) : RCell :=
  if (definedVals c).length ≤ 1 then none
  else some (Real.sqrt
    (((definedVals c).map (fun x => (x - meanR (definedVals c)) ^ 2)).sum /
      (((definedVals c).length - 1 : ℕ) : ℝ)))

open Classical in
/-- `X2.std(axis=0).replace(0.0, 1.0)` for one column: an exactly-zero
standard deviation becomes 1; NaN stays NaN. -/
noncomputable def stdRep (c : List RCell) : RCell :=
  (stdO c).map (fun s => if s = 0 then 1 else s)

/-- `col - col.mean()`: NaN cells stay NaN, and subtracting a NaN mean
leaves NaN. -/
noncomputable def demeanCol (c : List RCell) : List RCell :=
  c.map (fun x? => x?.bind (fun x => (meanO c).map (fun m => x - m)))

/-- `col / col.std().replace(0.0, 1.0)`: dividing by a NaN divisor gives
NaN. -/
noncomputable def scaleCol (c : List RCell) : List RCell :=
  c.map (fun x? => x?.bind (fun x => (stdRep c).map (fun s => x / s)))

/-- `standardise_returns(y, X, demean, scale)`: optionally demean the index
series and every asset column (per column), then optionally scale every
asset column (the index series is never scaled) by its zero-replaced
standard deviation. -/
noncomputable def standardise (y : List RCell) (X : List (List RCell)) (dm sc : Bool) :
    List RCell × List (List RCell) :=
  let y2 := if dm then demeanCol y else y
  let X2 := if dm then X.map demeanCol else X
  let X3 := if sc then X2.map scaleCol else X2
  (y2, X3)

/-! ### Declarative gap-fill specification

Used to settle the GapFiller claims by refinement: `fillCell` looks at the
whole prefix before a cell instead of scanning with an accumulator. -/

/-- The most recent prior defined value in a prefix `p` of a column. -/
def lastPriorDefined (p : List Cell) : Cell := (p.filterMap id).getLast?

/-- The number of consecutive undefined cells at the end of a prefix `p`,
i.e. the undefined run separating the next cell from the most recent
defined value. -/
def gapRun (p : List Cell) : Nat := (p.reverse.takeWhile Option.isNone).length

/-- What a cell becomes under limited forward filling, stated
declaratively: a defined cell is kept; an undefined cell whose distance
from the most recent prior defined value is at most `g` (fewer than `g`
undefined cells separate them) becomes that value; any other undefined cell
(further away, or with no prior defined value) stays undefined. -/
def fillCell (g : Nat) (p : List Cell) (cur : Cell) : Cell :=
  match cur with
  | some v => some v
  | none => if gapRun p < g then lastPriorDefined p else none

/-- `fillCell` applied position by position, each cell seeing the original
prefix before it. -/
def fillSpecGo (g : Nat) (p : List Cell) : List Cell → List Cell
  | [] => []
  | c :: rest => fillCell g p c :: fillSpecGo g (p ++ [c]) rest

/-- The declarative limited forward fill of a whole column. -/
def fillSpec (g : Nat) (c : List Cell) : List Cell := fillSpecGo g [] c

/-! ### Sample data used by witnesses and counterexamples -/

/-- A small three-day one-column price panel. -/
def dfEx : DF := ⟨[0, 1, 2], [("A", [some 1, some 2, some 3])]⟩

/-- External source for the C4 counterexample: asset `A` starts one day
later than the index and asset `B`. -/
def srcC4 : String → RawDF := fun s =>
  if s = "I" then ⟨[0, 1, 2], [("Close", [some 1, some 2, some 3])]⟩
  else if s = "A" then ⟨[1, 2], [("Close", [some 1, some 2])]⟩
  else ⟨[0, 1, 2], [("Close", [some 1, some 1, some 1])]⟩

/-- Configuration for the C4 counterexample run. -/
def cfgC4 : Config := ⟨"I", ["A", "B"], "D", 1⟩

/-- External source for the C5 witness: ten fully defined daily prices. -/
def srcTen : String → RawDF := fun s =>
  if s = "I" then ⟨[0, 1, 2, 3, 4, 5, 6, 7, 8, 9], [("Close", List.replicate 10 (some 1))]⟩
  else ⟨[0, 1, 2, 3, 4, 5, 6, 7, 8, 9], [("Close", List.replicate 10 (some 2))]⟩

/-- Configuration asking for at least 250 aligned rows. -/
def cfgTen : Config := ⟨"I", ["T"], "D", 250⟩

/-- The aligned ten-row asset panel `alignedPrices srcTen cfgTen` yields. -/
def aTen : DF := ⟨[0, 1, 2, 3, 4, 5, 6, 7, 8, 9], [("T", List.replicate 10 (some 2))]⟩

/-- The aligned ten-row index panel `alignedPrices srcTen cfgTen` yields. -/
def iTen : DF := ⟨[0, 1, 2, 3, 4, 5, 6, 7, 8, 9], [("I", List.replicate 10 (some 1))]⟩

/-- External source for the C4 witness: two fully defined days. -/
def srcTwo : String → RawDF := fun s =>
  if s = "I" then ⟨[0, 1], [("Close", [some 1, some 2])]⟩
  else ⟨[0, 1], [("Close", [some 3, some 4])]⟩

/-- Configuration for the C4 witness run. -/
def cfgTwo : Config := ⟨"I", ["T"], "D", 1⟩

/-- The aligned asset panel of the C4 witness run. -/
def aTwo : DF := ⟨[0, 1], [("T", [some 3, some 4])]⟩

/-- The aligned index panel of the C4 witness run. -/
def iTwo : DF := ⟨[0, 1], [("I", [some 1, some 2])]⟩

/-! ## Helper lemmas -/

theorem ffillCol_length (g : Nat) (c : List Cell) :
    ∀ (last : Cell) (cnt : Nat), (ffillCol g last cnt c).length = c.length := by
  induction c with
  | nil => intro last cnt; rfl
  | cons x rest ih =>
    intro last cnt
    cases x with
    | none => simpa [ffillCol] using ih last (cnt + 1)
    | some v => simpa [ffillCol] using ih (some v) 0

theorem ffillCol_defined (g : Nat) (c : List Cell) :
    ∀ (last : Cell) (cnt i : Nat) (v : ℚ), c.getD i none = some v →
      (ffillCol g last cnt c).getD i none = some v := by
  induction c with
  | nil => intro last cnt i v h; simp [List.getD] at h
  | cons x rest ih =>
    intro last cnt i v h
    cases i with
    | zero =>
      have hx : x = some v := h
      subst hx
      rfl
    | succ i =>
      have h' : rest.getD i none = some v := h
      cases x with
      | none => exact ih last (cnt + 1) i v h'
      | some w => exact ih (some w) 0 i v h'

theorem gapRun_append_some (p : List Cell) (v : ℚ) : gapRun (p ++ [some v]) = 0 := by
  simp [gapRun]

theorem gapRun_append_none (p : List Cell) : gapRun (p ++ [none]) = gapRun p + 1 := by
  simp [gapRun, List.takeWhile]

theorem lastPriorDefined_append_some (p : List Cell) (v : ℚ) :
    lastPriorDefined (p ++ [some v]) = some v := by
  simp [lastPriorDefined]

theorem lastPriorDefined_append_none (p : List Cell) :
    lastPriorDefined (p ++ [none]) = lastPriorDefined p := by
  simp [lastPriorDefined]

theorem ffillCol_eq_fillSpecGo (g : Nat) (c : List Cell) :
    ∀ p : List Cell, ffillCol g (lastPriorDefined p) (gapRun p) c = fillSpecGo g p c := by
  induction c with
  | nil => intro p; rfl
  | cons x rest ih =>
    intro p
    cases x with
    | none =>
      have htail : ffillCol g (lastPriorDefined p) (gapRun p + 1) rest =
          fillSpecGo g (p ++ [none]) rest := by
        have h := ih (p ++ [none])
        rwa [lastPriorDefined_append_none, gapRun_append_none] at h
      show (if gapRun p < g then lastPriorDefined p else none) ::
          ffillCol g (lastPriorDefined p) (gapRun p + 1) rest =
        fillCell g p none :: fillSpecGo g (p ++ [none]) rest
      rw [htail]
      rfl
    | some v =>
      have htail : ffillCol g (some v) 0 rest = fillSpecGo g (p ++ [some v]) rest := by
        have h := ih (p ++ [some v])
        rwa [lastPriorDefined_append_some, gapRun_append_some] at h
      show some v :: ffillCol g (some v) 0 rest =
        fillCell g p (some v) :: fillSpecGo g (p ++ [some v]) rest
      rw [htail]
      rfl

theorem ffillCol_eq_fillSpec (g : Nat) (c : List Cell) :
    ffillCol g none 0 c = fillSpec g c :=
  ffillCol_eq_fillSpecGo g c []

theorem mapSnd_getD_of_nil {f : List Cell → List Cell} (hf : f [] = [])
    (l : List (String × List Cell)) (k : Nat) :
    ((l.map (fun nc => (nc.1, f nc.2))).map Prod.snd).getD k [] =
      f ((l.map Prod.snd).getD k []) := by
  induction l generalizing k with
  | nil => simp [hf]
  | cons x rest ih =>
    cases k with
    | zero => rfl
    | succ k => simpa using ih k

theorem fetchSeries_ok_names (src : String → RawDF) (syms : List String) :
    ∀ series, fetchSeries src syms = .ok series → series.map Prod.fst = syms := by
  induction syms with
  | nil =>
    intro series h
    simp [fetchSeries] at h
    simp [← h]
  | cons sym rest ih =>
    intro series h
    unfold fetchSeries at h
    cases hf : fetchStooq sym (src sym) with
    | error e => rw [hf] at h; simp at h
    | ok s =>
      rw [hf] at h
      cases hr : fetchSeries src rest with
      | error e => rw [hr] at h; simp at h
      | ok more =>
        rw [hr] at h
        simp at h
        subst h
        simp [ih more hr]

/-! ## Claim theorems -/

/-- Claim C1, counterexample.  The claim says GapFiller leaves a run of
undefined cells longer than `g` entirely undefined, and that `g = 0` is the
identity.  The code (`df.ffill(limit=g)`) fills the first `g` cells of a
longer run — here `g = 1` and a run of two undefined cells gets its first
cell filled — and pandas rejects `limit = 0` with a `ValueError` instead of
acting as the identity. -/
theorem C1_gapFiller_cex :
    forwardFillLimited 1 ⟨[0, 1, 2], [("A", [some 1, none, none])]⟩ =
      .ok ⟨[0, 1, 2], [("A", [some 1, some 1, none])]⟩
    ∧ forwardFillLimited 0 ⟨[0, 1, 2], [("A", [some 1, none, none])]⟩ =
      .error .badFillLimit :=
  ⟨rfl, rfl⟩

/-- Claim C1 (amended): for `g ≥ 1`, GapFiller replaces each undefined cell
by the most recent prior defined value in its column exactly when at most
`g` consecutive undefined cells separate it from that value — so a run
longer than `g` is partially filled (its first `g` cells) — and leaves
leading undefined cells undefined; `g = 0` is rejected with an error rather
than being the identity.  Stated as a refinement: the scanning
implementation equals the declarative `fillSpec` per column. -/
theorem C1_gapFiller_amended (df : DF) (g : Nat) :
    (1 ≤ g → forwardFillLimited g df =
      .ok ⟨df.dates, df.cols.map (fun nc => (nc.1, fillSpec g nc.2))⟩)
    ∧ forwardFillLimited 0 df = .error .badFillLimit := by
  constructor
  · intro hg
    unfold forwardFillLimited
    rw [if_neg (by omega)]
    simp only [ffillCol_eq_fillSpec]
  · rfl

/-- Claim C1, witness: the amended characterization applied at `g = 1` on a
one-column panel. -/
theorem C1_gapFiller_witness :
    (1 : Nat) ≤ 1 ∧
    forwardFillLimited 1 ⟨[0, 1], [("A", [some 1, none])]⟩ =
      .ok ⟨[0, 1], [("A", fillSpec 1 [some 1, none])]⟩ :=
  ⟨by decide, (C1_gapFiller_amended ⟨[0, 1], [("A", [some 1, none])]⟩ 1).1 (by decide)⟩

/-- Claim C9: GapFiller (on any gap limit where it is defined, i.e. where
it returns a panel rather than the pandas limit error) preserves the date
axis, the column names, each column's length, and every cell that was
defined in the input; only undefined cells can change. -/
theorem C9_gapFiller_frame (g : Nat) (df out : DF)
    (h : forwardFillLimited g df = .ok out) :
    out.dates = df.dates
    ∧ out.cols.map Prod.fst = df.cols.map Prod.fst
    ∧ (∀ k, (dfCol out k).length = (dfCol df k).length)
    ∧ (∀ k i v, (dfCol df k).getD i none = some v →
        (dfCol out k).getD i none = some v) := by
  unfold forwardFillLimited at h
  by_cases hg : g = 0
  · rw [if_pos hg] at h; exact absurd h (by simp)
  · rw [if_neg hg] at h
    have hout : (⟨df.dates, df.cols.map (fun nc => (nc.1, ffillCol g none 0 nc.2))⟩ : DF) = out := by
      exact Except.ok.inj h
    subst hout
    have hcol : ∀ k,
        dfCol (⟨df.dates, df.cols.map (fun nc => (nc.1, ffillCol g none 0 nc.2))⟩ : DF) k =
          ffillCol g none 0 (dfCol df k) := by
      intro k
      simp only [dfCol]
      exact mapSnd_getD_of_nil rfl df.cols k
    refine ⟨rfl, by simp, ?_, ?_⟩
    · intro k
      rw [hcol k]
      exact ffillCol_length g _ none 0
    · intro k i v hv
      rw [hcol k]
      exact ffillCol_defined g _ none 0 i v hv

/-- Claim C9, witness: the frame property at `g = 1` on a concrete panel,
with the preserved defined cell checked at column 0, row 0. -/
theorem C9_gapFiller_frame_witness :
    (⟨[0, 1], [("A", [some 1, some 1])]⟩ : DF).dates = (⟨[0, 1], [("A", [some 1, none])]⟩ : DF).dates
    ∧ (dfCol (⟨[0, 1], [("A", [some 1, some 1])]⟩ : DF) 0).getD 0 none = some 1 := by
  have h := C9_gapFiller_frame 1 ⟨[0, 1], [("A", [some 1, none])]⟩
    ⟨[0, 1], [("A", [some 1, some 1])]⟩ rfl
  exact ⟨h.1, h.2.2.2 0 0 1 rfl⟩

/-- Claim C3, counterexample.  The claim says the Resampler fails for every
frequency tag outside {D, W, M}; the tag `"DAILY"` is outside that set, yet
`_resample_if_needed` accepts it (its guard is
`freq.upper() in ("D", "DAILY")`) and returns the panel unchanged. -/
theorem C3_resampler_cex : resampleIfNeeded dfEx ("DAILY") = .ok dfEx :=
  rfl

/-- Claim C3 (amended): the Resampler returns its input unchanged exactly
for tags whose uppercase form is `D` or `DAILY`, does not fail for tags
whose uppercase form is `W` or `M`, and fails with
`UnsupportedFrequencyError` (a `KeyError` in the source) for every other
tag. -/
theorem C3_resampler_amended (df : DF) (freq : String) :
    ((strUpper freq = "D" ∨ strUpper freq = "DAILY") → resampleIfNeeded df freq = .ok df)
    ∧ ((strUpper freq = "W" ∨ strUpper freq = "M") →
        ∀ e, resampleIfNeeded df freq ≠ .error e)
    ∧ (strUpper freq ≠ "D" → strUpper freq ≠ "DAILY" → strUpper freq ≠ "W" →
        strUpper freq ≠ "M" →
        resampleIfNeeded df freq = .error (.unsupportedFreq freq)) := by
  refine ⟨?_, ?_, ?_⟩
  · intro h
    unfold resampleIfNeeded
    rw [if_pos h]
  · rintro (h | h) e <;> simp [resampleIfNeeded, lookupRule, h]
  · intro h1 h2 h3 h4
    unfold resampleIfNeeded
    rw [if_neg (by tauto)]
    simp [lookupRule, h3, h4]

/-- Claim C3, witness: the amended behavior at the tags `"d"` (identity),
`"W"` (no failure), and `"Q"` (unsupported). -/
theorem C3_resampler_witness :
    resampleIfNeeded dfEx ("d") = .ok dfEx
    ∧ resampleIfNeeded dfEx ("W") ≠ .error (.unsupportedFreq ("W"))
    ∧ resampleIfNeeded dfEx ("Q") = .error (.unsupportedFreq ("Q")) :=
  ⟨(C3_resampler_amended dfEx ("d")).1 (by decide),
   (C3_resampler_amended dfEx ("W")).2.1 (by decide) _,
   (C3_resampler_amended dfEx ("Q")).2.2 (by decide) (by decide) (by decide) (by decide)⟩

/-- Claim C10: when the panel build succeeds, the resulting price panel has
exactly one column per requested instrument, named and ordered as the
requested identifier list. -/
theorem C10_panel_columns (src : String → RawDF) (syms : List String) (df : DF)
    (h : fetchMany src syms = .ok df) : df.cols.map Prod.fst = syms := by
  unfold fetchMany at h
  cases hs : fetchSeries src syms with
  | error e => rw [hs] at h; simp [Except.map] at h
  | ok series =>
    rw [hs] at h
    simp [Except.map] at h
    subst h
    show (series.map _).map Prod.fst = syms
    rw [List.map_map]
    simpa using fetchSeries_ok_names src syms series hs

/-- Claim C10, witness: a successful two-instrument build carries the
columns `["X", "Y"]` in request order. -/
theorem C10_panel_columns_witness :
    ∃ df, fetchMany (fun _ => ⟨[0], [("Close", [some 1])]⟩) (["X", "Y"]) = .ok df
      ∧ df.cols.map Prod.fst = ["X", "Y"] :=
  ⟨outerJoin [("X", [(0, some 1)]), ("Y", [(0, some 1)])], rfl,
   C10_panel_columns (fun _ => ⟨[0], [("Close", [some 1])]⟩) (["X", "Y"]) _ rfl⟩

theorem cellAt_nil (dates : List Nat) (d : Nat) : cellAt dates [] d = none := by
  simp [cellAt]

theorem cellAt_map_self (l : List Nat) (f : Nat → Cell) (d : Nat) (hd : d ∈ l) :
    cellAt l (l.map f) d = f d := by
  induction l with
  | nil => simp at hd
  | cons x rest ih =>
    show ((((x, f x) :: rest.zip (rest.map f)).lookup d).getD none) = f d
    by_cases hx : d = x
    · have hx' : (d == x) = true := by simpa using hx
      simp [List.lookup, hx', hx]
    · have hx' : (d == x) = false := by simpa using hx
      have hdr : d ∈ rest := by
        rcases List.mem_cons.mp hd with h | h
        · exact absurd h hx
        · exact h
      have := ih hdr
      simpa [List.lookup, hx', cellAt] using this

theorem mapSnd_getD_lt (F : List Cell → List Cell) (l : List (String × List Cell))
    (k : Nat) (hk : k < l.length) :
    ((l.map (fun nc => (nc.1, F nc.2))).map Prod.snd).getD k [] =
      F ((l.map Prod.snd).getD k []) := by
  induction l generalizing k with
  | nil => simp at hk
  | cons x rest ih =>
    cases k with
    | zero => rfl
    | succ k => simpa using ih k (by simpa using hk)

/-- Claim C7: the Aligner restricts both well-formed tables (strictly
ascending date axes, the PricePanel invariant) to the set intersection of
their date axes, keeps ascending order, preserves column names and the
cells at every surviving date, and its output date axis depends only on the
two input date axes, not on the tables' values. -/
theorem C7_aligner (a b : DF)
    (ha : List.Sorted (· < ·) a.dates) (_hb : List.Sorted (· < ·) b.dates) :
    (intersectDates a b).1.dates = (intersectDates a b).2.dates
    ∧ (∀ d, d ∈ (intersectDates a b).1.dates ↔ d ∈ a.dates ∧ d ∈ b.dates)
    ∧ List.Sorted (· < ·) (intersectDates a b).1.dates
    ∧ (intersectDates a b).1.cols.map Prod.fst = a.cols.map Prod.fst
    ∧ (intersectDates a b).2.cols.map Prod.fst = b.cols.map Prod.fst
    ∧ (∀ d ∈ (intersectDates a b).1.dates, ∀ k,
        dfCell (intersectDates a b).1 k d = dfCell a k d
        ∧ dfCell (intersectDates a b).2 k d = dfCell b k d)
    ∧ (∀ a' b' : DF, a'.dates = a.dates → b'.dates = b.dates →
        (intersectDates a' b').1.dates = (intersectDates a b).1.dates) := by
  have hmem : ∀ d, d ∈ (intersectDates a b).1.dates ↔ d ∈ a.dates ∧ d ∈ b.dates := by
    intro d
    show d ∈ a.dates.filter (fun d => b.dates.contains d) ↔ _
    rw [List.mem_filter]
    constructor
    · rintro ⟨h1, h2⟩; exact ⟨h1, List.elem_iff.mp h2⟩
    · rintro ⟨h1, h2⟩; exact ⟨h1, List.elem_iff.mpr h2⟩
  have hval : ∀ (df : DF) (d : Nat),
      d ∈ a.dates.filter (fun x => b.dates.contains x) → ∀ k,
      dfCell (locDF df (a.dates.filter (fun x => b.dates.contains x))) k d = dfCell df k d := by
    intro df d hd k
    rcases Nat.lt_or_ge k df.cols.length with hk | hk
    · have h1 : dfCol (locDF df (a.dates.filter (fun x => b.dates.contains x))) k =
          (a.dates.filter (fun x => b.dates.contains x)).map
            (fun x => cellAt df.dates (dfCol df k) x) := by
        show ((df.cols.map (fun nc =>
            (nc.1, (a.dates.filter (fun x => b.dates.contains x)).map
              (fun x => cellAt df.dates nc.2 x)))).map Prod.snd).getD k [] = _
        exact mapSnd_getD_lt
          (fun c => (a.dates.filter (fun x => b.dates.contains x)).map
            (fun x => cellAt df.dates c x)) df.cols k hk
      show cellAt (a.dates.filter (fun x => b.dates.contains x))
          (dfCol (locDF df (a.dates.filter (fun x => b.dates.contains x))) k) d = _
      rw [h1]
      exact cellAt_map_self _ _ d hd
    · have h2 : dfCol (locDF df (a.dates.filter (fun x => b.dates.contains x))) k = [] := by
        apply List.getD_eq_default
        simpa [locDF] using hk
      have h3 : dfCol df k = [] := by
        apply List.getD_eq_default
        simpa using hk
      show cellAt _ _ d = cellAt _ _ d
      rw [h2, h3, cellAt_nil, cellAt_nil]
  refine ⟨rfl, hmem, ?_, ?_, ?_, ?_, ?_⟩
  · exact ha.filter _
  · simp [intersectDates, locDF, List.map_map]
  · simp [intersectDates, locDF, List.map_map]
  · intro d hd k
    exact ⟨hval a d hd k, hval b d hd k⟩
  · intro a' b' ha' hb'
    show a'.dates.filter (fun d => b'.dates.contains d) = a.dates.filter _
    rw [ha', hb']

/-- Claim C7, witness: the Aligner's properties checked on two concrete
sorted panels sharing the dates 1 and 2. -/
theorem C7_aligner_witness :
    (intersectDates ⟨[0, 1, 2], [("A", [some 1, some 2, some 3])]⟩
        ⟨[1, 2, 3], [("I", [some 5, some 6, some 7])]⟩).1.dates =
      (intersectDates ⟨[0, 1, 2], [("A", [some 1, some 2, some 3])]⟩
        ⟨[1, 2, 3], [("I", [some 5, some 6, some 7])]⟩).2.dates
    ∧ dfCell (intersectDates ⟨[0, 1, 2], [("A", [some 1, some 2, some 3])]⟩
        ⟨[1, 2, 3], [("I", [some 5, some 6, some 7])]⟩).1 0 1 =
      dfCell (⟨[0, 1, 2], [("A", [some 1, some 2, some 3])]⟩ : DF) 0 1 := by
  have h := C7_aligner ⟨[0, 1, 2], [("A", [some 1, some 2, some 3])]⟩
    ⟨[1, 2, 3], [("I", [some 5, some 6, some 7])]⟩ (by decide) (by decide)
  exact ⟨h.1, (h.2.2.2.2.2.1 1 (by decide) 0).1⟩

/-- Claim C8: PriceFetcher fails with `NoDataError` exactly when the source
response is empty (so it never silently returns an empty series); the
canonical price field is the first available of `"Adj Close"`, `"AdjClose"`,
`"Close"`; and a successful fetch returns exactly that column's rows,
sorted ascending by date. -/
theorem C8_fetcher (sym : String) (raw : RawDF) :
    (fetchStooq sym raw = .error (.noData sym) ↔ (raw.dates = [] ∨ raw.cols = []))
    ∧ (("Adj Close") ∈ raw.cols.map Prod.fst →
        pickCol (raw.cols.map Prod.fst) = "Adj Close")
    ∧ (("Adj Close") ∉ raw.cols.map Prod.fst → ("AdjClose") ∈ raw.cols.map Prod.fst →
        pickCol (raw.cols.map Prod.fst) = "AdjClose")
    ∧ (("Adj Close") ∉ raw.cols.map Prod.fst → ("AdjClose") ∉ raw.cols.map Prod.fst →
        pickCol (raw.cols.map Prod.fst) = "Close")
    ∧ (∀ s, fetchStooq sym raw = .ok s →
        List.Sorted keyLE s
        ∧ ∃ vals, raw.cols.find? (fun nc => nc.1 == pickCol (raw.cols.map Prod.fst)) =
            some (pickCol (raw.cols.map Prod.fst), vals)
          ∧ s.Perm (raw.dates.zip vals)) := by
  have hAdj : ("Adj Close") ∈ raw.cols.map Prod.fst →
      pickCol (raw.cols.map Prod.fst) = "Adj Close" := by
    intro h
    unfold pickCol
    rw [List.find?_cons_of_pos _ (by simpa using List.elem_iff.mpr h)]
  have hAdj2 : ("Adj Close") ∉ raw.cols.map Prod.fst → ("AdjClose") ∈ raw.cols.map Prod.fst →
      pickCol (raw.cols.map Prod.fst) = "AdjClose" := by
    intro h1 h2
    unfold pickCol
    rw [List.find?_cons_of_neg _ (by simpa using fun hc => h1 (List.elem_iff.mp hc)),
      List.find?_cons_of_pos _ (by simpa using List.elem_iff.mpr h2)]
  have hClose : ("Adj Close") ∉ raw.cols.map Prod.fst → ("AdjClose") ∉ raw.cols.map Prod.fst →
      pickCol (raw.cols.map Prod.fst) = "Close" := by
    intro h1 h2
    unfold pickCol
    rw [List.find?_cons_of_neg _ (by simpa using fun hc => h1 (List.elem_iff.mp hc)),
      List.find?_cons_of_neg _ (by simpa using fun hc => h2 (List.elem_iff.mp hc))]
    by_cases h3 : ("Close") ∈ raw.cols.map Prod.fst
    · rw [List.find?_cons_of_pos _ (by simpa using List.elem_iff.mpr h3)]
    · rw [List.find?_cons_of_neg _ (by simpa using fun hc => h3 (List.elem_iff.mp hc))]
      rfl
  refine ⟨?_, hAdj, hAdj2, hClose, ?_⟩
  · unfold fetchStooq
    by_cases hemp : raw.dates = [] ∨ raw.cols = []
    · rw [if_pos hemp]
      simpa using hemp
    · rw [if_neg hemp]
      cases hfind : raw.cols.find? (fun nc => nc.1 == pickCol (raw.cols.map Prod.fst)) with
      | none => simpa using hemp
      | some nc => simpa using hemp
  · intro s h
    unfold fetchStooq at h
    by_cases hemp : raw.dates = [] ∨ raw.cols = []
    · rw [if_pos hemp] at h; simp at h
    · rw [if_neg hemp] at h
      cases hfind : raw.cols.find? (fun nc => nc.1 == pickCol (raw.cols.map Prod.fst)) with
      | none => rw [hfind] at h; simp at h
      | some nc =>
        rw [hfind] at h
        have hs : sortRows (raw.dates.zip nc.2) = s := by simpa using h
        subst hs
        refine ⟨List.sorted_insertionSort keyLE _, nc.2, ?_, List.perm_insertionSort keyLE _⟩
        have hname : nc.1 = pickCol (raw.cols.map Prod.fst) := by
          simpa using List.find?_some hfind
        rw [← hname]

/-- Claim C8, witness: fetching from a nonempty two-row descending
response selects `"Close"` (no adjusted-close present) and yields the rows
sorted ascending. -/
theorem C8_fetcher_witness :
    pickCol ((⟨[2, 1], [("Close", [some 3, some 2])]⟩ : RawDF).cols.map Prod.fst) = "Close"
    ∧ List.Sorted keyLE ([(1, some 2), (2, some 3)] : Series) := by
  have h := C8_fetcher ("S") ⟨[2, 1], [("Close", [some 3, some 2])]⟩
  exact ⟨h.2.2.2.1 (by decide) (by decide),
    (h.2.2.2.2 ([(1, some 2), (2, some 3)]) rfl).1⟩

/-- Claim C2, counterexample.  For the single-column input `[1, NaN, 2]`,
the claim says the middle row's return is undefined.  `pct_change()` under
its default `fill_method="pad"` first pads the undefined price with the
prior value, so the middle row's return is the defined value 0 (and the
first all-undefined row is dropped). -/
theorem C2_returns_cex :
    (toSimpleReturns ⟨[0, 1, 2], [("A", [some 1, none, some 2])]⟩).dates = [1, 2]
    ∧ dfCell (toSimpleReturns ⟨[0, 1, 2], [("A", [some 1, none, some 2])]⟩) 0 1 = some 0 := by
  refine ⟨rfl, ?_⟩
  have h : dfCell (toSimpleReturns ⟨[0, 1, 2], [("A", [some 1, none, some 2])]⟩) 0 1 =
      some ((1 : ℚ) / 1 - 1) := rfl
  rw [h]
  norm_num

/-- Claim C2 (amended): for a three-row single-column input
`[P0, undefined, P2]` with `P0 ≠ 0`, ReturnComputer yields the defined
value 0 at the middle row (the undefined price is padded with `P0` before
differencing) and `P2 / P0 - 1` at the last row, the all-undefined first
row being dropped; for a two-row input `[P0, P1]` the output is the single
row `P1 / P0 - 1`. -/
theorem C2_returns_amended :
    (∀ (d0 d1 d2 : Nat) (nm : String) (P0 P2 : ℚ), P0 ≠ 0 →
      toSimpleReturns ⟨[d0, d1, d2], [(nm, [some P0, none, some P2])]⟩ =
        ⟨[d1, d2], [(nm, [some 0, some (P2 / P0 - 1)])]⟩)
    ∧ (∀ (d0 d1 : Nat) (nm : String) (P0 P1 : ℚ), P0 ≠ 0 →
      toSimpleReturns ⟨[d0, d1], [(nm, [some P0, some P1])]⟩ =
        ⟨[d1], [(nm, [some (P1 / P0 - 1)])]⟩) := by
  constructor
  · intro d0 d1 d2 nm P0 P2 h0
    have hpct : pctCol [some P0, none, some P2] =
        [none, some (P0 / P0 - 1), some (P2 / P0 - 1)] := rfl
    rw [div_self h0, sub_self] at hpct
    show dropAllNaNRows ⟨[d0, d1, d2], [(nm, pctCol [some P0, none, some P2])]⟩ = _
    rw [hpct]
    rfl
  · intro d0 d1 nm P0 P1 _h0
    have hpct : pctCol [some P0, some P1] = [none, some (P1 / P0 - 1)] := rfl
    show dropAllNaNRows ⟨[d0, d1], [(nm, pctCol [some P0, some P1])]⟩ = _
    rw [hpct]
    rfl

/-- Claim C2, witness: the amended return computation at the concrete
prices `P0 = 4`, `P2 = 6` and `P0 = 4`, `P1 = 5`. -/
theorem C2_returns_witness :
    toSimpleReturns ⟨[10, 11, 12], [("A", [some 4, none, some 6])]⟩ =
      ⟨[11, 12], [("A", [some 0, some (6 / 4 - 1)])]⟩
    ∧ toSimpleReturns ⟨[10, 11], [("A", [some 4, some 5])]⟩ =
      ⟨[11], [("A", [some (5 / 4 - 1)])]⟩ :=
  ⟨C2_returns_amended.1 10 11 12 ("A") 4 6 (by norm_num),
   C2_returns_amended.2 10 11 ("A") 4 5 (by norm_num)⟩

/-- Claim C5: `main`'s sanity gate.  After price-level alignment and before
any return computation (and before anything is persisted — the error
short-circuits the run), the pipeline fails with `InsufficientDataError`
carrying the actual and the required row counts exactly when the aligned
asset panel has fewer rows than the configured minimum; otherwise the gate
passes and the run completes. -/
theorem C5_insufficient_gate (src : String → RawDF) (cfg : Config) (a i : DF)
    (h : alignedPrices src cfg = .ok (a, i)) :
    (a.dates.length < cfg.minDays →
      runMain src cfg = .error (.insufficientData a.dates.length cfg.minDays))
    ∧ (cfg.minDays ≤ a.dates.length → runMain src cfg = .ok (mkOut a i)) := by
  unfold runMain
  rw [h]
  constructor
  · intro hlt
    show (if (a, i).1.dates.length < cfg.minDays then _ else _) = _
    rw [if_pos hlt]
  · intro hge
    show (if (a, i).1.dates.length < cfg.minDays then _ else _) = _
    rw [if_neg (Nat.not_lt.mpr hge)]

/-- Claim C5, witness: ten aligned rows against a configured minimum of 250
fail with `InsufficientDataError` carrying actual = 10, required = 250. -/
theorem C5_insufficient_gate_witness :
    alignedPrices srcTen cfgTen = .ok (aTen, iTen)
    ∧ runMain srcTen cfgTen = .error (.insufficientData 10 250) := by
  refine ⟨rfl, ?_⟩
  exact (C5_insufficient_gate srcTen cfgTen aTen iTen rfl).1 (by decide)

theorem ffillPad_length (c : List Cell) : ∀ last : Cell, (ffillPad last c).length = c.length := by
  induction c with
  | nil => intro last; rfl
  | cons x rest ih =>
    intro last
    cases x with
    | none => simpa [ffillPad] using ih last
    | some v => simpa [ffillPad] using ih (some v)

theorem pctCol_length (c : List Cell) : (pctCol c).length = c.length := by
  simp [pctCol, ffillPad_length]

theorem maskFilter_length_eq {α β : Type} (m : List Bool) :
    ∀ (l₁ : List α) (l₂ : List β), l₁.length = l₂.length →
      (maskFilter m l₁).length = (maskFilter m l₂).length := by
  induction m with
  | nil => intro l₁ l₂ _; rfl
  | cons b m' ih =>
    intro l₁ l₂ h
    cases l₁ with
    | nil =>
      cases l₂ with
      | nil => rfl
      | cons y t₂ => simp at h
    | cons x t₁ =>
      cases l₂ with
      | nil => simp at h
      | cons y t₂ =>
        have ht : t₁.length = t₂.length := by simpa using h
        cases b with
        | false =>
          show (maskFilter m' t₁).length = (maskFilter m' t₂).length
          exact ih t₁ t₂ ht
        | true =>
          show (x :: maskFilter m' t₁).length = (y :: maskFilter m' t₂).length
          simp [ih t₁ t₂ ht]

theorem maskFilter_defined_aux (f : Nat → Bool) :
    ∀ (l : List Cell) (n k : Nat),
      (∀ i, i < l.length → f (k + i) = true → (l.getD i none).isSome = true) →
      ∀ x ∈ maskFilter ((List.range' k n).map f) l, x.isSome = true := by
  intro l
  induction l with
  | nil =>
    intro n k _ x hx
    simp [maskFilter] at hx
  | cons c t ih =>
    intro n k hk x hx
    cases n with
    | zero => simp [maskFilter] at hx
    | succ n =>
      have hshift : ∀ i, i < t.length → f (k + 1 + i) = true →
          (t.getD i none).isSome = true := by
        intro i hi hfi
        have h1 : f (k + (i + 1)) = true := by
          rw [show k + (i + 1) = k + 1 + i from by omega]
          exact hfi
        have := hk (i + 1) (by simp only [List.length_cons]; omega) h1
        simpa using this
      have hr : List.range' k (n + 1) = k :: List.range' (k + 1) n := rfl
      rw [hr] at hx
      rcases hfk : f k with _ | _
      · have hx' : x ∈ maskFilter ((List.range' (k + 1) n).map f) t := by
          simpa [maskFilter, hfk] using hx
        exact ih n (k + 1) hshift x hx'
      · have hx' : x = c ∨ x ∈ maskFilter ((List.range' (k + 1) n).map f) t := by
          simpa [maskFilter, hfk] using hx
        rcases hx' with hc | hx'
        · rw [hc]
          have := hk 0 (by simp) (by simpa using hfk)
          simpa using this
        · exact ih n (k + 1) hshift x hx'

theorem maskFilter_defined (l : List Cell) (n : Nat) (f : Nat → Bool)
    (hf : ∀ i, i < l.length → f i = true → (l.getD i none).isSome = true) :
    ∀ x ∈ maskFilter ((List.range n).map f) l, x.isSome = true := by
  intro x hx
  refine maskFilter_defined_aux f l n 0 ?_ x ?_
  · intro i hi hfi
    exact hf i hi (by simpa using hfi)
  · rwa [List.range_eq_range'] at hx

theorem cellAt_defined (dates : List Nat) (c : List Cell) (d : Nat)
    (hd : d ∈ dates) (hlen : dates.length ≤ c.length)
    (hdef : ∀ x ∈ c, x.isSome = true) : (cellAt dates c d).isSome = true := by
  induction dates generalizing c with
  | nil => simp at hd
  | cons e rest ih =>
    cases c with
    | nil => simp at hlen
    | cons y t =>
      show ((((e, y) :: rest.zip t).lookup d).getD none).isSome = true
      by_cases hde : d = e
      · have hbe : (d == e) = true := by simpa using hde
        simp only [List.lookup, hbe]
        exact hdef y (by simp)
      · have hbe : (d == e) = false := by simpa using hde
        have hdr : d ∈ rest := by
          rcases List.mem_cons.mp hd with h | h
          · exact absurd h hde
          · exact h
        have hlen' : rest.length ≤ t.length := by
          simp only [List.length_cons] at hlen
          omega
        have := ih t hdr hlen' (fun x hx => hdef x (List.mem_cons_of_mem y hx))
        simpa [cellAt, List.lookup, hbe] using this

theorem locDF_all_defined (df : DF) (ds : List Nat)
    (hds : ∀ d ∈ ds, d ∈ df.dates)
    (hwf : ∀ nc ∈ df.cols, df.dates.length ≤ nc.2.length)
    (hdef : ∀ nc ∈ df.cols, ∀ x ∈ nc.2, x.isSome = true) :
    ∀ nc ∈ (locDF df ds).cols, ∀ x ∈ nc.2, x.isSome = true := by
  intro nc hnc x hx
  simp only [locDF] at hnc
  rw [List.mem_map] at hnc
  obtain ⟨nc0, hnc0, hm⟩ := hnc
  rw [← hm] at hx
  rw [List.mem_map] at hx
  obtain ⟨d, hd, hcell⟩ := hx
  rw [← hcell]
  exact cellAt_defined df.dates nc0.2 d (hds d hd) (hwf nc0 hnc0) (hdef nc0 hnc0)

theorem toSimpleReturns_single_defined (df : DF) (h1 : df.cols.length = 1) :
    ∀ nc ∈ (toSimpleReturns df).cols, ∀ x ∈ nc.2, x.isSome = true := by
  obtain ⟨nc0, hcols⟩ := List.length_eq_one.mp h1
  intro nc hnc x hx
  simp only [toSimpleReturns, dropAllNaNRows, hcols, List.map_cons, List.map_nil] at hnc
  rw [List.mem_singleton] at hnc
  rw [hnc] at hx
  refine maskFilter_defined (pctCol nc0.2) _ _ ?_ x hx
  intro i _ hfi
  simpa using hfi

theorem toSimpleReturns_wf (df : DF)
    (hwf : ∀ nc ∈ df.cols, nc.2.length = df.dates.length) :
    ∀ nc ∈ (toSimpleReturns df).cols, nc.2.length = (toSimpleReturns df).dates.length := by
  intro nc hnc
  simp only [toSimpleReturns, dropAllNaNRows, List.map_map] at hnc ⊢
  rw [List.mem_map] at hnc
  obtain ⟨nc0, hnc0, hm⟩ := hnc
  rw [← hm]
  show (maskFilter _ (pctCol nc0.2)).length = _
  apply maskFilter_length_eq
  rw [pctCol_length]
  exact hwf nc0 hnc0

theorem forwardFill_cols_length (g : Nat) (df r : DF)
    (h : forwardFillLimited g df = .ok r) : r.cols.length = df.cols.length := by
  unfold forwardFillLimited at h
  by_cases hg : g = 0
  · rw [if_pos hg] at h; simp at h
  · rw [if_neg hg] at h
    have := Except.ok.inj h
    rw [← this]
    simp

theorem resample_cols_length (df : DF) (freq : String) (r : DF)
    (h : resampleIfNeeded df freq = .ok r) : r.cols.length = df.cols.length := by
  unfold resampleIfNeeded at h
  by_cases hD : strUpper freq = "D" ∨ strUpper freq = "DAILY"
  · rw [if_pos hD] at h
    have := Except.ok.inj h
    rw [← this]
  · rw [if_neg hD] at h
    cases hl : lookupRule (strUpper freq) with
    | none => rw [hl] at h; simp at h
    | some rule =>
      rw [hl] at h
      have := Except.ok.inj h
      rw [← this]
      rcases hdd : df.dates with _ | ⟨d0, ds⟩ <;> simp [resampleLast, hdd]

theorem intersect_snd_shape (x y : DF) (h1 : y.cols.length = 1) :
    (intersectDates x y).2.cols.length = 1
    ∧ ∀ nc ∈ (intersectDates x y).2.cols, nc.2.length = (intersectDates x y).2.dates.length := by
  constructor
  · simpa [intersectDates, locDF] using h1
  · intro nc hnc
    simp only [intersectDates, locDF] at hnc ⊢
    rw [List.mem_map] at hnc
    obtain ⟨nc0, _, hm⟩ := hnc
    rw [← hm]
    simp

theorem alignedPrices_idx_shape (src : String → RawDF) (cfg : Config) (p : DF × DF)
    (h : alignedPrices src cfg = .ok p) :
    p.2.cols.length = 1 ∧ ∀ nc ∈ p.2.cols, nc.2.length = p.2.dates.length := by
  unfold alignedPrices at h
  split at h
  · simp at h
  split at h
  · simp at h
  split at h
  · simp at h
  split at h
  · simp at h
  rename_i idxP1 hfi
  have hi1 : idxP1.cols.length = 1 := by
    rw [forwardFill_cols_length 3 _ idxP1 hfi]
    simp [seriesToFrame]
  split at h
  · have hp := Except.ok.inj h
    rw [← hp]
    exact intersect_snd_shape _ _ hi1
  · split at h
    · simp at h
    split at h
    · simp at h
    rename_i i' hri
    have hp := Except.ok.inj h
    rw [← hp]
    refine intersect_snd_shape _ _ ?_
    rw [resample_cols_length _ _ _ hri]
    exact hi1

/-- Claim C4, counterexample.  The claim says no undefined cells remain in
the final asset return panel.  In this concrete run asset `A`'s series
starts one day after the index and asset `B`, its padded return at the
first common return date is still undefined, and that undefined cell
survives to the persisted `AlignedDataset`: the final axis is `[1, 2]`, yet
column `A`'s cell at date 1 is undefined. -/
theorem C4_aligned_cex :
    (runMain srcC4 cfgC4).map (fun o => o.assetRets.dates) = .ok [1, 2]
    ∧ (runMain srcC4 cfgC4).map (fun o => dfCell o.assetRets 0 1) = .ok none :=
  ⟨rfl, rfl⟩

/-- Claim C4 (amended): the standalone loader's output pair does satisfy
the full invariant (one shared row list, hence an identical ordered date
axis, and every remaining cell defined); the pipeline's final
`AlignedDataset` is guaranteed to share exactly the same ordered date axis
between the asset return panel and index return series, and the index
return series member contains no undefined cells (the index frame has a
single column, so `dropna(how="all")` removes every one of its undefined
rows and the re-intersection only restricts); undefined cells may remain
only in the asset return panel (see the counterexample). -/
theorem C4_aligned_amended :
    (∀ (idxT : List (Nat × Cell)) (astT : List (Nat × List Cell)),
      ((loadReturns idxT astT).1.map Prod.fst = (loadReturns idxT astT).2.map Prod.fst)
      ∧ (∀ p ∈ (loadReturns idxT astT).1, p.2.isSome = true)
      ∧ (∀ r ∈ (loadReturns idxT astT).2, ∀ c ∈ r.2, c.isSome = true))
    ∧ (∀ (src : String → RawDF) (cfg : Config) (out : MainOut),
        runMain src cfg = .ok out →
          out.assetRets.dates = out.idxRets.dates
          ∧ ∀ nc ∈ out.idxRets.cols, ∀ x ∈ nc.2, x.isSome = true) := by
  constructor
  · intro idxT astT
    refine ⟨by simp [loadReturns, List.map_map], ?_, ?_⟩
    · intro p hp
      simp only [loadReturns] at hp
      rw [List.mem_map] at hp
      obtain ⟨r, hr, hpr⟩ := hp
      have hpred := (List.mem_filter.mp hr).2
      rw [Bool.and_eq_true] at hpred
      rw [← hpr]
      exact hpred.1
    · intro r hr c hc
      simp only [loadReturns] at hr
      rw [List.mem_map] at hr
      obtain ⟨r0, hr0, hrr⟩ := hr
      have hpred := (List.mem_filter.mp hr0).2
      rw [Bool.and_eq_true] at hpred
      have hall := List.all_eq_true.mp hpred.2
      rw [← hrr] at hc
      exact hall c hc
  · intro src cfg out h
    unfold runMain at h
    cases ha : alignedPrices src cfg with
    | error e => rw [ha] at h; simp at h
    | ok p =>
      rw [ha] at h
      have h' : (if p.1.dates.length < cfg.minDays then
          Except.error (PipeError.insufficientData p.1.dates.length cfg.minDays)
          else Except.ok (mkOut p.1 p.2)) = Except.ok out := h
      by_cases hlt : p.1.dates.length < cfg.minDays
      · rw [if_pos hlt] at h'; simp at h'
      · rw [if_neg hlt] at h'
        have hout : mkOut p.1 p.2 = out := by simpa using h'
        obtain ⟨hi1, hwf⟩ := alignedPrices_idx_shape src cfg p ha
        rw [← hout]
        refine ⟨rfl, ?_⟩
        show ∀ nc ∈ (locDF (toSimpleReturns p.2)
            ((toSimpleReturns p.1).dates.filter
              (fun d => (toSimpleReturns p.2).dates.contains d))).cols,
          ∀ x ∈ nc.2, x.isSome = true
        refine locDF_all_defined _ _ ?_ ?_ ?_
        · intro d hd
          exact List.elem_iff.mp (List.mem_filter.mp hd).2
        · intro nc hnc
          exact le_of_eq (toSimpleReturns_wf p.2 hwf nc hnc).symm
        · exact toSimpleReturns_single_defined p.2 hi1

/-- Claim C4, witness: the loader invariant on a one-row input pair, and
the pipeline-end shared date axis on a concrete successful run. -/
theorem C4_aligned_witness :
    (loadReturns [(0, some 1)] [(0, [some 2])]).1.map Prod.fst =
      (loadReturns [(0, some 1)] [(0, [some 2])]).2.map Prod.fst
    ∧ (mkOut aTwo iTwo).assetRets.dates = (mkOut aTwo iTwo).idxRets.dates :=
  ⟨(C4_aligned_amended.1 [(0, some 1)] [(0, [some 2])]).1,
   (C4_aligned_amended.2 srcTwo cfgTwo (mkOut aTwo iTwo) rfl).1⟩

/-- Claim C6, counterexample.  The claim says the scaling division never
introduces undefined values.  A one-row panel has a NaN sample standard
deviation (`std` with `ddof=1` over a single observation), which the
`replace(0.0, 1.0)` does not touch, so the defined cell 5 is divided by NaN
and comes out undefined. -/
theorem C6_standardizer_cex :
    (standardise [some 0] [[some 5]] false true).2 = [[none]] :=
  rfl

/-- Claim C6 (amended): with `scale=true` the Standardizer divides each
asset column (after the optional demeaning, exactly as the code sequences
it) by its standard deviation when that is nonzero and by 1 when it is
exactly zero, and the zero-replaced divisor is never zero, so no infinite
or undefined value is introduced — provided the column has at least two
defined observations; a column with fewer is turned entirely undefined
(see the counterexample). -/
theorem C6_standardizer_amended :
    (∀ (y : List RCell) (X : List (List RCell)) (dm : Bool),
      (standardise y X dm true).2 = ((standardise y X dm false).2).map scaleCol)
    ∧ (∀ c : List RCell, 2 ≤ (definedVals c).length →
        ∃ s, stdO c = some s
          ∧ (∃ s', stdRep c = some s' ∧ s' ≠ 0)
          ∧ (s ≠ 0 → scaleCol c = c.map (fun x? => x?.map (fun x => x / s)))
          ∧ (s = 0 → scaleCol c = c)
          ∧ (∀ j, ((scaleCol c).getD j none).isSome = ((c.getD j none).isSome))) := by
  constructor
  · intro y X dm
    rfl
  · intro c hc
    have hne : ¬ (definedVals c).length ≤ 1 := by omega
    obtain ⟨s, hs⟩ : ∃ s, stdO c = some s := by
      unfold stdO
      rw [if_neg hne]
      exact ⟨_, rfl⟩
    have hrep : stdRep c = some (if s = 0 then 1 else s) := by
      unfold stdRep
      rw [hs]
      rfl
    refine ⟨s, hs, ⟨if s = 0 then 1 else s, hrep, ?_⟩, ?_, ?_, ?_⟩
    · by_cases h0 : s = 0
      · rw [if_pos h0]; norm_num
      · rw [if_neg h0]; exact h0
    · intro h0
      rw [if_neg h0] at hrep
      have hcell : ∀ x? : RCell,
          x?.bind (fun x => (stdRep c).map (fun t => x / t)) = x?.map (fun x => x / s) := by
        intro x?
        rw [hrep]
        cases x? <;> rfl
      simp only [scaleCol, hcell]
    · intro h0
      rw [if_pos h0] at hrep
      have hcell : ∀ x? : RCell,
          x?.bind (fun x => (stdRep c).map (fun t => x / t)) = x? := by
        intro x?
        rw [hrep]
        cases x? <;> simp
      simp only [scaleCol, hcell, List.map_id']
    · intro j
      rw [List.getD_eq_getD_get?, List.getD_eq_getD_get?]
      have hm : (scaleCol c).get? j = (c.get? j).map
          (fun x? => x?.bind (fun x => (stdRep c).map (fun t => x / t))) := by
        simp [scaleCol, List.get?_eq_getElem?, List.getElem?_map]
      rw [hm]
      cases hj : c.get? j with
      | none => rfl
      | some x? =>
        cases x? with
        | none => simp
        | some x => simp [hrep]

/-- Claim C6, witness: a column with two defined observations keeps the
definedness of its first cell under scaling. -/
theorem C6_standardizer_witness :
    2 ≤ (definedVals [some 1, some 1]).length
    ∧ ((scaleCol [some 1, some 1]).getD 0 none).isSome =
        (([some 1, some 1] : List RCell).getD 0 none).isSome := by
  have h2 : 2 ≤ (definedVals [some 1, some 1]).length := by simp [definedVals]
  obtain ⟨s, _, _, _, _, hiso⟩ := C6_standardizer_amended.2 [some 1, some 1] h2
  exact ⟨h2, hiso 0⟩

end BLP


